import Mathlib

/-!
Verification of the collaborative-canvas server core: the per-room
operation log (`DrawingState` in `drawing-state.js`) and the room/session
registry (`RoomManager` in `rooms.js`), shallowly embedded as pure Lean
functions.  Mutating JavaScript methods become functions returning the
new state; `Date.now()` becomes an explicit `now : Nat` argument;
JavaScript `Map` objects become insertion-ordered association lists with
unique keys (matching `Map` iteration/size semantics).
-/

namespace CanvasCode

/-- JavaScript array element access `a[i]` with a possibly negative index:
`undefined` (here `none`) for out-of-range, no wrap-around for negatives
used as plain element reads. -/
def jsIndex (l : List α) (i : Int) : Option α :=
  if i < 0 then none else l.get? i.toNat

/-- The elements kept by `arr.splice(start)` (equivalently returned by
`arr.slice(0, start)`): the first `start` elements, where a negative
`start` counts from the end, clamped at 0. -/
def jsTake (l : List α) (i : Int) : List α :=
  if i < 0 then l.take ((l.length : Int) + i).toNat else l.take i.toNat

/-- Payload of a stroke operation as built by the server's
`stroke-complete` handler (before `addOperation` stamps id/timestamp). -/
structure OpData where
  type : String
  userId : String
  username : String
  userColor : String
  tool : String
  color : String
  lineWidth : Nat
  points : List (Int × Int)
  deriving Repr, DecidableEq

/-- A stored operation: the payload spread together with the metadata
(`id`, `timestamp`) that `addOperation` adds. -/
structure Operation where
  data : OpData
  id : Nat
  timestamp : Nat
  deriving Repr, DecidableEq

/-- The per-room operation log (`class DrawingState`). -/
structure DrawingState where
  roomId : String
  operations : List Operation
  currentIndex : Int
  deriving Repr, DecidableEq

/-- Constructor `new DrawingState(roomId)`: empty log, `currentIndex = -1`. -/
def DrawingState.init (roomId : String) : DrawingState :=
  { roomId := roomId, operations := [], currentIndex := -1 }

/-- Method `DrawingState.addOperation(operation)`: truncate the future when
`currentIndex < operations.length - 1` (via `splice(currentIndex + 1)`),
stamp `id = operations.length` and `timestamp = Date.now()`, push, and
increment `currentIndex`.  Returns the assigned id and the new state. -/
def DrawingState.addOperation (s : DrawingState) (operation : OpData) (now : Nat) :
    Nat × DrawingState :=
  let ops :=
    if s.currentIndex < (s.operations.length : Int) - 1 then
      jsTake s.operations (s.currentIndex + 1)
    else s.operations
  let opWithMetadata : Operation := { data := operation, id := ops.length, timestamp := now }
  (opWithMetadata.id,
   { s with operations := ops ++ [opWithMetadata], currentIndex := s.currentIndex + 1 })

/-- Result object returned by `undo`/`redo` (`{type, operation, newIndex}`);
`operation` is an `Option` because `this.operations[i]` can be `undefined`. -/
structure HistoryResult where
  type : String
  operation : Option Operation
  newIndex : Int
  deriving Repr, DecidableEq

/-- Method `DrawingState.undo()`: `null` when `currentIndex < 0`; otherwise reads
the operation at `currentIndex`, decrements `currentIndex`, and returns
`{type: 'undo', operation, newIndex}` alongside the new state. -/
def DrawingState.undo (s : DrawingState) : Option HistoryResult × DrawingState :=
  if s.currentIndex < 0 then (none, s)
  else
    let operation := jsIndex s.operations s.currentIndex
    let s' := { s with currentIndex := s.currentIndex - 1 }
    (some { type := "undo", operation := operation, newIndex := s'.currentIndex }, s')

/-- Method `DrawingState.redo()`: `null` when `currentIndex >= operations.length - 1`;
otherwise increments `currentIndex` and returns the operation now at the
new index as `{type: 'redo', operation, newIndex}`. -/
def DrawingState.redo (s : DrawingState) : Option HistoryResult × DrawingState :=
  if s.currentIndex ≥ (s.operations.length : Int) - 1 then (none, s)
  else
    let s' := { s with currentIndex := s.currentIndex + 1 }
    let operation := jsIndex s'.operations s'.currentIndex
    (some { type := "redo", operation := operation, newIndex := s'.currentIndex }, s')

/-- Method `DrawingState.getActiveOperations()`: `operations.slice(0, currentIndex + 1)`. -/
def DrawingState.getActiveOperations (s : DrawingState) : List Operation :=
  jsTake s.operations (s.currentIndex + 1)

/-- The `{operations, currentIndex}` object returned by `getFullState`. -/
structure FullState where
  operations : List Operation
  currentIndex : Int
  deriving Repr, DecidableEq

/-- Method `DrawingState.getFullState()`: active operations plus `currentIndex`. -/
def DrawingState.getFullState (s : DrawingState) : FullState :=
  { operations := s.getActiveOperations, currentIndex := s.currentIndex }

/-- Method `DrawingState.clear()`: empty the log, `currentIndex = -1`. -/
def DrawingState.clear (s : DrawingState) : DrawingState :=
  { s with operations := [], currentIndex := -1 }

/-- One call on a room's log, as dispatched by the server's socket
handlers (`stroke-complete`, `undo`, `redo`, `clear-canvas`). -/
inductive LogCall where
  | add (d : OpData) (now : Nat)
  | undoCall
  | redoCall
  | clearCall
  deriving Repr, DecidableEq

/-- Apply one call to the log, keeping only the state. -/
def stepLog (s : DrawingState) : LogCall → DrawingState
  | .add d now => (s.addOperation d now).2
  | .undoCall => s.undo.2
  | .redoCall => s.redo.2
  | .clearCall => s.clear

/-- The log reached from the initial empty state by a call sequence. -/
def runLog (roomId : String) (calls : List LogCall) : DrawingState :=
  calls.foldl stepLog (DrawingState.init roomId)

/-- The index-bounds invariant of the data model:
`-1 ≤ currentIndex ≤ operations.length - 1`. -/
def WfLog (s : DrawingState) : Prop :=
  -1 ≤ s.currentIndex ∧ s.currentIndex ≤ (s.operations.length : Int) - 1

/- ### Room manager (`rooms.js`) -/

/-- JavaScript `Map.prototype.get`: first (and, with unique keys, only) binding. -/
def mapGet : List (String × α) → String → Option α
  | [], _ => none
  | p :: rest, k => if p.1 == k then some p.2 else mapGet rest k

/-- JavaScript `Map.prototype.set`: replace in place when the key exists, otherwise
append (preserving insertion order). -/
def mapSet : List (String × α) → String → α → List (String × α)
  | [], k, v => [(k, v)]
  | p :: rest, k, v => if p.1 == k then (k, v) :: rest else p :: mapSet rest k v

/-- JavaScript `Map.prototype.delete`: drop the binding of the key, if any. -/
def mapDelete : List (String × α) → String → List (String × α)
  | [], _ => []
  | p :: rest, k => if p.1 == k then rest else p :: mapDelete rest k

/-- JavaScript `a || b` for a string-or-absent value: the default is used
when the value is `undefined` or the empty string (both falsy). -/
def jsOrElse (v : Option String) (d : String) : String :=
  match v with
  | some s => if s = "" then d else s
  | none => d

/-- A user object as built by `addUserToRoom`. -/
structure User where
  id : String
  username : String
  color : String
  cursor : Int × Int
  joinedAt : Nat
  deriving Repr, DecidableEq

/-- A room record as built by `getRoom`: roster map, drawing state,
creation time. -/
structure Room where
  id : String
  users : List (String × User)
  drawingState : DrawingState
  createdAt : Nat
  deriving Repr, DecidableEq

/-- The fixed ordered color palette `this.userColors` (10 entries). -/
def userColors : List String :=
  ["#FF6B6B", "#4ECDC4", "#45B7D1", "#FFA07A",
   "#98D8C8", "#F7DC6F", "#BB8FCE", "#85C1E2",
   "#F8B739", "#52B788"]

/-- The room registry (`class RoomManager`).  `rooms` is the
`roomId -> Room` map; `pendingCleanups` records the room ids whose
empty-room deletion `setTimeout` has been armed and has not yet fired
(the timer body itself is `fireCleanupTimer` below). -/
structure RoomManager where
  rooms : List (String × Room)
  pendingCleanups : List String
  deriving Repr, DecidableEq

/-- Constructor `new RoomManager()`: no rooms. -/
def RoomManager.init : RoomManager := { rooms := [], pendingCleanups := [] }

/-- Method `RoomManager.getRoom(roomId)`: get-or-create; an unknown id allocates
`{id, users: new Map(), drawingState: new DrawingState(roomId), createdAt}`. -/
def RoomManager.getRoom (m : RoomManager) (roomId : String) (now : Nat) :
    Room × RoomManager :=
  match mapGet m.rooms roomId with
  | some room => (room, m)
  | none =>
    let room : Room :=
      { id := roomId, users := [], drawingState := DrawingState.init roomId, createdAt := now }
    (room, { m with rooms := mapSet m.rooms roomId room })

/-- Method `RoomManager.addUserToRoom(roomId, socketId, username)`: color index is
`room.users.size % userColors.length` at join time; default display name is
`` `User${room.users.size + 1}` `` when `username` is falsy. -/
def RoomManager.addUserToRoom (m : RoomManager) (roomId socketId : String)
    (username : Option String) (now : Nat) : User × RoomManager :=
  let (room, m1) := m.getRoom roomId now
  let colorIndex := room.users.length % userColors.length
  let user : User :=
    { id := socketId,
      username := jsOrElse username ("User" ++ toString (room.users.length + 1)),
      color := (userColors.get? colorIndex).getD "",
      cursor := (0, 0),
      joinedAt := now }
  let room' := { room with users := mapSet room.users socketId user }
  (user, { m1 with rooms := mapSet m1.rooms roomId room' })

/-- Method `RoomManager.removeUserFromRoom(roomId, socketId)`: silently returns on
an unknown room; otherwise deletes the roster entry and, when the roster
became empty, arms the 5-minute cleanup `setTimeout` (recorded in
`pendingCleanups`; its body is `fireCleanupTimer`). -/
def RoomManager.removeUserFromRoom (m : RoomManager) (roomId socketId : String) :
    RoomManager :=
  match mapGet m.rooms roomId with
  | none => m
  | some room =>
    let room' := { room with users := mapDelete room.users socketId }
    let m1 := { m with rooms := mapSet m.rooms roomId room' }
    if room'.users.length = 0 then
      { m1 with pendingCleanups := m1.pendingCleanups ++ [roomId] }
    else m1

/-- The body of the cleanup `setTimeout` in `removeUserFromRoom`, run when
the 5-minute timer fires: re-read the room and delete it only if it still
exists and its roster is still empty. -/
def RoomManager.fireCleanupTimer (m : RoomManager) (roomId : String) : RoomManager :=
  let m0 := { m with pendingCleanups := m.pendingCleanups.erase roomId }
  match mapGet m0.rooms roomId with
  | some currentRoom =>
    if currentRoom.users.length = 0 then
      { m0 with rooms := mapDelete m0.rooms roomId }
    else m0
  | none => m0

/-- Method `RoomManager.getUser(roomId, socketId)`: `null` when the room or the
user is unknown; no room is created. -/
def RoomManager.getUser (m : RoomManager) (roomId socketId : String) : Option User :=
  match mapGet m.rooms roomId with
  | some room => mapGet room.users socketId
  | none => none

/-- Method `RoomManager.getRoomUsers(roomId)`: roster values in insertion order,
`[]` when the room is unknown; no room is created. -/
def RoomManager.getRoomUsers (m : RoomManager) (roomId : String) : List User :=
  match mapGet m.rooms roomId with
  | some room => room.users.map Prod.snd
  | none => []

/-- Method `RoomManager.getDrawingState(roomId)`: goes through `getRoom`, so an
unknown id fabricates the room. -/
def RoomManager.getDrawingState (m : RoomManager) (roomId : String) (now : Nat) :
    DrawingState × RoomManager :=
  let (room, m1) := m.getRoom roomId now
  (room.drawingState, m1)

/- ### Concrete data used by scenario conjuncts and witnesses -/

/-- A concrete stroke payload, tagged by author for readability. -/
def sampleOp (tag : String) : OpData :=
  { type := "stroke", userId := tag, username := tag, userColor := "#FF6B6B",
    tool := "brush", color := "#000000", lineWidth := 2, points := [(0, 0)] }

/-- A concrete two-operation log positioned at index 0 (one redoable entry). -/
def wLog : DrawingState :=
  { roomId := "r",
    operations := [{ data := sampleOp "A", id := 0, timestamp := 0 },
                   { data := sampleOp "B", id := 1, timestamp := 1 }],
    currentIndex := 0 }

/-- The room record that `getRoom` allocates for an unseen id. -/
def freshRoom (roomId : String) (now : Nat) : Room :=
  { id := roomId, users := [], drawingState := DrawingState.init roomId, createdAt := now }

/-- The user record that `addUserToRoom` builds when the roster it sees at
join time is `users`. -/
def joinUser (users : List (String × User)) (socketId : String)
    (uname : Option String) (now : Nat) : User :=
  { id := socketId,
    username := jsOrElse uname ("User" ++ toString (users.length + 1)),
    color := (userColors.get? (users.length % userColors.length)).getD "",
    cursor := (0, 0),
    joinedAt := now }

/-- The roster update that `addUserToRoom` writes back into the room. -/
def joinedRoom (room : Room) (socketId : String) (uname : Option String)
    (now : Nat) : Room :=
  { room with users := mapSet room.users socketId (joinUser room.users socketId uname now) }

/-- A concrete user, room and registry: one room `"r"` whose single
member is session `"A"` and whose log is `wLog`. -/
def wUser : User :=
  { id := "A", username := "User1", color := "#FF6B6B", cursor := (0, 0), joinedAt := 0 }

/-- The room of the concrete registry `wManager`. -/
def wRoom : Room :=
  { id := "r", users := [("A", wUser)], drawingState := wLog, createdAt := 0 }

/-- A concrete registry holding exactly the room `wRoom`. -/
def wManager : RoomManager :=
  { rooms := [("r", wRoom)], pendingCleanups := [] }

/-- The call sequence join A, join B, remove A, join C on one room. -/
def colorScenario : RoomManager :=
  ((((RoomManager.init.addUserToRoom "room" "A" none 0).2.addUserToRoom
      "room" "B" none 1).2.removeUserFromRoom "room" "A").addUserToRoom
      "room" "C" none 2).2

/- ### Shared lemmas -/

theorem jsTake_of_nonneg (l : List α) (i : Int) (h : 0 ≤ i) :
    jsTake l i = l.take i.toNat := by
  unfold jsTake
  rw [if_neg (by omega)]

theorem mapGet_mapSet_self (l : List (String × α)) (k : String) (v : α) :
    mapGet (mapSet l k v) k = some v := by
  induction l with
  | nil => simp [mapSet, mapGet]
  | cons p rest ih =>
    by_cases h : p.1 == k
    · simp [mapSet, mapGet, h]
    · simp [mapSet, mapGet, h, ih]

/-- The combined log invariant: index bounds plus position-based ids. -/
def GoodLog (s : DrawingState) : Prop :=
  WfLog s ∧ s.operations.map Operation.id = List.range s.operations.length

theorem goodLog_init (roomId : String) : GoodLog (DrawingState.init roomId) := by
  refine ⟨⟨by norm_num [DrawingState.init], by norm_num [DrawingState.init]⟩, ?_⟩
  simp [DrawingState.init]

theorem goodLog_addOperation (s : DrawingState) (d : OpData) (now : Nat)
    (hg : GoodLog s) : GoodLog (s.addOperation d now).2 := by
  obtain ⟨⟨h1, h2⟩, hids⟩ := hg
  unfold DrawingState.addOperation
  by_cases h : s.currentIndex < (s.operations.length : Int) - 1
  · rw [if_pos h, jsTake_of_nonneg _ _ (by omega)]
    have hlen : (s.currentIndex + 1).toNat ≤ s.operations.length := by omega
    constructor
    · constructor
      · simp only []
        omega
      · simp only [List.length_append, List.length_take, List.length_cons,
          List.length_nil]
        omega
    · simp only [List.map_append, List.map_take, hids, List.map_cons, List.map_nil,
        List.length_append, List.length_take, List.length_cons, List.length_nil]
      rw [List.take_range]
      have hmin : min (s.currentIndex + 1).toNat s.operations.length
          = (s.currentIndex + 1).toNat := by omega
      rw [hmin, ← List.range_succ]
  · rw [if_neg h]
    constructor
    · constructor
      · simp only []
        omega
      · simp only [List.length_append, List.length_cons, List.length_nil]
        omega
    · simp only [List.map_append, hids, List.map_cons, List.map_nil,
        List.length_append, List.length_cons, List.length_nil]
      rw [← List.range_succ]

theorem goodLog_undo (s : DrawingState) (hg : GoodLog s) : GoodLog s.undo.2 := by
  obtain ⟨⟨h1, h2⟩, hids⟩ := hg
  unfold DrawingState.undo
  by_cases h : s.currentIndex < 0
  · rw [if_pos h]
    exact ⟨⟨h1, h2⟩, hids⟩
  · rw [if_neg h]
    exact ⟨⟨show (-1 : Int) ≤ s.currentIndex - 1 by omega,
            show s.currentIndex - 1 ≤ (s.operations.length : Int) - 1 by omega⟩, hids⟩

theorem goodLog_redo (s : DrawingState) (hg : GoodLog s) : GoodLog s.redo.2 := by
  obtain ⟨⟨h1, h2⟩, hids⟩ := hg
  unfold DrawingState.redo
  by_cases h : s.currentIndex ≥ (s.operations.length : Int) - 1
  · rw [if_pos h]
    exact ⟨⟨h1, h2⟩, hids⟩
  · rw [if_neg h]
    exact ⟨⟨show (-1 : Int) ≤ s.currentIndex + 1 by omega,
            show s.currentIndex + 1 ≤ (s.operations.length : Int) - 1 by omega⟩, hids⟩

theorem goodLog_clear (s : DrawingState) : GoodLog s.clear := by
  refine ⟨⟨by norm_num [DrawingState.clear], by norm_num [DrawingState.clear]⟩, ?_⟩
  simp [DrawingState.clear]

theorem goodLog_stepLog (s : DrawingState) (c : LogCall) (hg : GoodLog s) :
    GoodLog (stepLog s c) := by
  cases c with
  | add d now => exact goodLog_addOperation s d now hg
  | undoCall => exact goodLog_undo s hg
  | redoCall => exact goodLog_redo s hg
  | clearCall => exact goodLog_clear s

theorem goodLog_foldl (calls : List LogCall) (s : DrawingState) (hg : GoodLog s) :
    GoodLog (calls.foldl stepLog s) := by
  induction calls generalizing s with
  | nil => exact hg
  | cons c rest ih => exact ih _ (goodLog_stepLog s c hg)

theorem goodLog_runLog (roomId : String) (calls : List LogCall) :
    GoodLog (runLog roomId calls) :=
  goodLog_foldl calls _ (goodLog_init roomId)

theorem undo_eq_of_nonneg (s : DrawingState) (h : 0 ≤ s.currentIndex) :
    s.undo = (some { type := "undo", operation := jsIndex s.operations s.currentIndex,
                     newIndex := s.currentIndex - 1 },
              { s with currentIndex := s.currentIndex - 1 }) := by
  unfold DrawingState.undo
  rw [if_neg (by omega)]

theorem undo_eq_of_neg (s : DrawingState) (h : s.currentIndex < 0) :
    s.undo = (none, s) := by
  unfold DrawingState.undo
  rw [if_pos h]

theorem redo_eq_of_lt (s : DrawingState)
    (h : s.currentIndex < (s.operations.length : Int) - 1) :
    s.redo = (some { type := "redo", operation := jsIndex s.operations (s.currentIndex + 1),
                     newIndex := s.currentIndex + 1 },
              { s with currentIndex := s.currentIndex + 1 }) := by
  unfold DrawingState.redo
  rw [if_neg (by omega)]

theorem redo_eq_of_ge (s : DrawingState)
    (h : (s.operations.length : Int) - 1 ≤ s.currentIndex) :
    s.redo = (none, s) := by
  unfold DrawingState.redo
  rw [if_pos (by omega)]

/- ### Claims about the operation log -/

/-- C1: when `currentIndex < operations.length - 1`, `addOperation` first
truncates `operations` to the prefix of length `currentIndex + 1`, then
appends the new operation (with id equal to the truncated length) and
leaves `currentIndex = operations.length - 1`; in particular, from a log
`[A,B,C]` at index 2, `undo(); undo(); add(D)` yields `[A, D]` at index 1. -/
theorem addOperation_truncates_future :
    (∀ (s : DrawingState) (d : OpData) (now : Nat),
        -1 ≤ s.currentIndex → s.currentIndex < (s.operations.length : Int) - 1 →
        (s.addOperation d now).2.operations
            = s.operations.take (s.currentIndex + 1).toNat
              ++ [{ data := d, id := (s.currentIndex + 1).toNat, timestamp := now }] ∧
          (s.addOperation d now).2.currentIndex
            = ((s.addOperation d now).2.operations.length : Int) - 1) ∧
      runLog "r" [.add (sampleOp "A") 0, .add (sampleOp "B") 1, .add (sampleOp "C") 2,
          .undoCall, .undoCall, .add (sampleOp "D") 3]
        = { roomId := "r",
            operations := [{ data := sampleOp "A", id := 0, timestamp := 0 },
                           { data := sampleOp "D", id := 1, timestamp := 3 }],
            currentIndex := 1 } := by
  constructor
  · intro s d now h1 h2
    unfold DrawingState.addOperation
    rw [if_pos h2, jsTake_of_nonneg _ _ (by omega)]
    have hlen : (s.operations.take (s.currentIndex + 1).toNat).length
        = (s.currentIndex + 1).toNat := by
      rw [List.length_take]
      omega
    constructor
    · simp only []
      rw [hlen]
    · simp only [List.length_append, hlen, List.length_cons, List.length_nil]
      omega
  · decide

theorem addOperation_truncates_future_witness :
    (-1 : Int) ≤ wLog.currentIndex ∧
    wLog.currentIndex < (wLog.operations.length : Int) - 1 ∧
    ((wLog.addOperation (sampleOp "D") 5).2.operations
        = wLog.operations.take (wLog.currentIndex + 1).toNat
          ++ [{ data := sampleOp "D", id := (wLog.currentIndex + 1).toNat, timestamp := 5 }] ∧
      (wLog.addOperation (sampleOp "D") 5).2.currentIndex
        = (((wLog.addOperation (sampleOp "D") 5).2.operations.length : Int) - 1)) :=
  ⟨by decide, by decide,
   addOperation_truncates_future.1 wLog (sampleOp "D") 5 (by decide) (by decide)⟩

/-- C2: every log reachable from the initial empty state by `addOperation`,
`undo`, `redo` and `clear` calls satisfies
`-1 ≤ currentIndex ≤ operations.length - 1`. -/
theorem reachable_index_bounds (roomId : String) (calls : List LogCall) :
    -1 ≤ (runLog roomId calls).currentIndex ∧
    (runLog roomId calls).currentIndex
      ≤ ((runLog roomId calls).operations.length : Int) - 1 :=
  (goodLog_runLog roomId calls).1

/-- C3: on a well-formed log where undo succeeds (`0 ≤ currentIndex`),
`undo()` followed by `redo()` restores the whole state (in particular
`currentIndex` and the untouched `operations`), and both calls return the
operation at the original `currentIndex`. -/
theorem undo_redo_round_trip (s : DrawingState) (hwf : WfLog s)
    (h : 0 ≤ s.currentIndex) :
    s.undo.2.redo.2 = s ∧
    s.undo.1.map HistoryResult.operation = some (jsIndex s.operations s.currentIndex) ∧
    s.undo.2.redo.1.map HistoryResult.operation
      = some (jsIndex s.operations s.currentIndex) ∧
    s.undo.2.redo.2.operations = s.operations := by
  obtain ⟨h1, h2⟩ := hwf
  have e : s.currentIndex - 1 + 1 = s.currentIndex := by omega
  rw [undo_eq_of_nonneg s h]
  simp only []
  rw [redo_eq_of_lt { s with currentIndex := s.currentIndex - 1 }
      (show s.currentIndex - 1 < (s.operations.length : Int) - 1 by omega)]
  refine ⟨?_, rfl, ?_, rfl⟩
  · rw [e]
  · rw [e]
    exact rfl

theorem undo_redo_round_trip_witness :
    WfLog wLog ∧ (0 : Int) ≤ wLog.currentIndex ∧
    (wLog.undo.2.redo.2 = wLog ∧
      wLog.undo.1.map HistoryResult.operation
        = some (jsIndex wLog.operations wLog.currentIndex) ∧
      wLog.undo.2.redo.1.map HistoryResult.operation
        = some (jsIndex wLog.operations wLog.currentIndex) ∧
      wLog.undo.2.redo.2.operations = wLog.operations) :=
  ⟨⟨by decide, by decide⟩, by decide,
   undo_redo_round_trip wLog ⟨by decide, by decide⟩ (by decide)⟩

/-- C4: `undo()` returns `null` exactly when `currentIndex < 0` and
otherwise returns the operation stored at `currentIndex` with
`newIndex = currentIndex - 1`, only decrementing the index; `redo()`
returns `null` exactly when `currentIndex ≥ operations.length - 1` and
otherwise increments the index and returns the operation at the new index
with that `newIndex`; neither call changes `operations`. -/
theorem undo_redo_contract (s : DrawingState) :
    (s.undo.1 = none ↔ s.currentIndex < 0) ∧
    (0 ≤ s.currentIndex →
      s.undo.1 = some { type := "undo", operation := jsIndex s.operations s.currentIndex,
                        newIndex := s.currentIndex - 1 } ∧
      s.undo.2 = { s with currentIndex := s.currentIndex - 1 }) ∧
    s.undo.2.operations = s.operations ∧
    (s.redo.1 = none ↔ (s.operations.length : Int) - 1 ≤ s.currentIndex) ∧
    (s.currentIndex < (s.operations.length : Int) - 1 →
      s.redo.1 = some { type := "redo", operation := jsIndex s.operations (s.currentIndex + 1),
                        newIndex := s.currentIndex + 1 } ∧
      s.redo.2 = { s with currentIndex := s.currentIndex + 1 }) ∧
    s.redo.2.operations = s.operations := by
  by_cases hu : s.currentIndex < 0
  · rw [undo_eq_of_neg s hu]
    by_cases hr : (s.operations.length : Int) - 1 ≤ s.currentIndex
    · rw [redo_eq_of_ge s hr]
      exact ⟨⟨fun _ => hu, fun _ => rfl⟩, fun h => absurd h (by omega), rfl,
             ⟨fun _ => hr, fun _ => rfl⟩, fun h => absurd h (by omega), rfl⟩
    · rw [redo_eq_of_lt s (by omega)]
      exact ⟨⟨fun _ => hu, fun _ => rfl⟩, fun h => absurd h (by omega), rfl,
             ⟨fun h => absurd h (by simp at h), fun h => absurd h (by omega)⟩,
             fun _ => ⟨rfl, rfl⟩, rfl⟩
  · rw [undo_eq_of_nonneg s (by omega)]
    by_cases hr : (s.operations.length : Int) - 1 ≤ s.currentIndex
    · rw [redo_eq_of_ge s hr]
      exact ⟨⟨fun h => absurd h (by simp at h), fun h => absurd h (by omega)⟩,
             fun _ => ⟨rfl, rfl⟩, rfl, ⟨fun _ => hr, fun _ => rfl⟩,
             fun h => absurd h (by omega), rfl⟩
    · rw [redo_eq_of_lt s (by omega)]
      exact ⟨⟨fun h => absurd h (by simp at h), fun h => absurd h (by omega)⟩,
             fun _ => ⟨rfl, rfl⟩, rfl,
             ⟨fun h => absurd h (by simp at h), fun h => absurd h (by omega)⟩,
             fun _ => ⟨rfl, rfl⟩, rfl⟩

theorem undo_redo_contract_witness :
    (0 : Int) ≤ wLog.currentIndex ∧
    wLog.currentIndex < (wLog.operations.length : Int) - 1 ∧
    (wLog.undo.1 = some { type := "undo",
                          operation := jsIndex wLog.operations wLog.currentIndex,
                          newIndex := wLog.currentIndex - 1 } ∧
      wLog.undo.2 = { wLog with currentIndex := wLog.currentIndex - 1 }) ∧
    (wLog.redo.1 = some { type := "redo",
                          operation := jsIndex wLog.operations (wLog.currentIndex + 1),
                          newIndex := wLog.currentIndex + 1 } ∧
      wLog.redo.2 = { wLog with currentIndex := wLog.currentIndex + 1 }) :=
  ⟨by decide, by decide,
   (undo_redo_contract wLog).2.1 (by decide),
   (undo_redo_contract wLog).2.2.2.2.1 (by decide)⟩

/-- C5: `getFullState` returns exactly the active slice
`operations[0 .. currentIndex]` (i.e. the prefix of length
`currentIndex + 1`) together with `currentIndex`; at `currentIndex = -1`
the returned slice is empty.  The embedded `getFullState` is a pure
function of the log, so the log is not mutated. -/
theorem getFullState_snapshot (s : DrawingState) (h : -1 ≤ s.currentIndex) :
    s.getFullState.operations = s.operations.take (s.currentIndex + 1).toNat ∧
    s.getFullState.currentIndex = s.currentIndex ∧
    (s.currentIndex = -1 → s.getFullState.operations = []) := by
  refine ⟨?_, rfl, ?_⟩
  · unfold DrawingState.getFullState DrawingState.getActiveOperations
    rw [jsTake_of_nonneg _ _ (by omega)]
  · intro h2
    unfold DrawingState.getFullState DrawingState.getActiveOperations
    rw [jsTake_of_nonneg _ _ (by omega), h2]
    simp

theorem getFullState_snapshot_witness :
    (-1 : Int) ≤ wLog.currentIndex ∧
    (wLog.getFullState.operations
        = wLog.operations.take (wLog.currentIndex + 1).toNat ∧
      wLog.getFullState.currentIndex = wLog.currentIndex ∧
      (wLog.currentIndex = -1 → wLog.getFullState.operations = [])) :=
  ⟨by decide, getFullState_snapshot wLog (by decide)⟩

/-- C6 counterexample: on one room's log, `add(A)` returns id 0 and
`add(B)` returns id 1, but after one `undo` the next `add(C)` again
returns id 1 — the id returned is not strictly greater than every
previously returned id, and two operations assigned in the room shared
an id. -/
theorem add_id_reuse_counterexample :
    (((DrawingState.init "r").addOperation (sampleOp "A") 0).2.addOperation
        (sampleOp "B") 1).1 = 1 ∧
    ((((DrawingState.init "r").addOperation (sampleOp "A") 0).2.addOperation
        (sampleOp "B") 1).2.undo.2.addOperation (sampleOp "C") 2).1 = 1 := by
  decide

/-- C6 (amended): ids are position-based, so within the operations
currently stored in a room's log they are exactly `0, 1, …, len-1`:
strictly increasing along the log and unique; uniqueness and monotonicity
do not extend to ids returned for operations that were later discarded by
the add-after-undo truncation. -/
theorem stored_ids_position_based (roomId : String) (calls : List LogCall) :
    (runLog roomId calls).operations.map Operation.id
        = List.range (runLog roomId calls).operations.length ∧
    ((runLog roomId calls).operations.map Operation.id).Pairwise (· < ·) ∧
    ((runLog roomId calls).operations.map Operation.id).Nodup := by
  have h := (goodLog_runLog roomId calls).2
  refine ⟨h, ?_, ?_⟩
  · rw [h]
    exact List.pairwise_lt_range _
  · rw [h]
    exact List.nodup_range _

/- ### Claims about the room manager -/

theorem getRoom_known (m : RoomManager) (roomId : String) (now : Nat) (room : Room)
    (h : mapGet m.rooms roomId = some room) : m.getRoom roomId now = (room, m) := by
  unfold RoomManager.getRoom
  rw [h]

theorem getRoom_unknown (m : RoomManager) (roomId : String) (now : Nat)
    (h : mapGet m.rooms roomId = none) :
    m.getRoom roomId now
      = (freshRoom roomId now,
         { m with rooms := mapSet m.rooms roomId (freshRoom roomId now) }) := by
  unfold RoomManager.getRoom
  rw [h]
  exact rfl

theorem addUserToRoom_of_known (m : RoomManager) (roomId socketId : String)
    (uname : Option String) (now : Nat) (room : Room)
    (h : mapGet m.rooms roomId = some room) :
    m.addUserToRoom roomId socketId uname now
      = (joinUser room.users socketId uname now,
         { m with rooms := mapSet m.rooms roomId (joinedRoom room socketId uname now) }) := by
  unfold RoomManager.addUserToRoom
  rw [getRoom_known m roomId now room h]
  exact rfl

theorem fireCleanupTimer_rooms_of_nonempty (m : RoomManager) (roomId : String)
    (room : Room) (h : mapGet m.rooms roomId = some room)
    (hne : room.users.length ≠ 0) :
    (m.fireCleanupTimer roomId).rooms = m.rooms := by
  unfold RoomManager.fireCleanupTimer
  simp only []
  rw [h]
  simp only [if_neg hne]

/-- C7 counterexample: `removeUserFromRoom` on a room id absent from the
registry does not fabricate the room — the registry still has no entry
for it afterwards (the call silently returns). -/
theorem remove_unknown_room_counterexample :
    mapGet RoomManager.init.rooms "r" = none ∧
    mapGet (RoomManager.init.removeUserFromRoom "r" "s").rooms "r" = none := by
  decide

/-- C7 (amended): for an unknown room id no operation surfaces a
"room not found" error, but only `getRoom` and `getDrawingState`
fabricate the room; `removeUserFromRoom` silently leaves the registry
unchanged, `getRoomUsers` returns an empty roster, and `getUser` returns
`null`, none of them creating the room. -/
theorem unknown_room_handling (m : RoomManager) (roomId socketId : String) (now : Nat)
    (h : mapGet m.rooms roomId = none) :
    (m.getRoom roomId now).1 = freshRoom roomId now ∧
    mapGet (m.getRoom roomId now).2.rooms roomId = some (freshRoom roomId now) ∧
    (m.getDrawingState roomId now).1 = DrawingState.init roomId ∧
    (mapGet (m.getDrawingState roomId now).2.rooms roomId).isSome = true ∧
    m.removeUserFromRoom roomId socketId = m ∧
    m.getRoomUsers roomId = [] ∧
    m.getUser roomId socketId = none := by
  have hroom := getRoom_unknown m roomId now h
  refine ⟨?_, ?_, ?_, ?_, ?_, ?_, ?_⟩
  · rw [hroom]
  · rw [hroom]
    exact mapGet_mapSet_self m.rooms roomId _
  · unfold RoomManager.getDrawingState
    rw [hroom]
    exact rfl
  · unfold RoomManager.getDrawingState
    rw [hroom]
    simp [mapGet_mapSet_self]
  · unfold RoomManager.removeUserFromRoom
    rw [h]
  · unfold RoomManager.getRoomUsers
    rw [h]
  · unfold RoomManager.getUser
    rw [h]

theorem unknown_room_handling_witness :
    mapGet RoomManager.init.rooms "r" = none ∧
    ((RoomManager.init.getRoom "r" 7).1 = freshRoom "r" 7 ∧
      mapGet (RoomManager.init.getRoom "r" 7).2.rooms "r" = some (freshRoom "r" 7) ∧
      (RoomManager.init.getDrawingState "r" 7).1 = DrawingState.init "r" ∧
      (mapGet (RoomManager.init.getDrawingState "r" 7).2.rooms "r").isSome = true ∧
      RoomManager.init.removeUserFromRoom "r" "s" = RoomManager.init ∧
      RoomManager.init.getRoomUsers "r" = [] ∧
      RoomManager.init.getUser "r" "s" = none) :=
  ⟨by decide, unknown_room_handling RoomManager.init "r" "s" 7 (by decide)⟩

/-- C8: removing the last session keeps the room in the registry (only
arming the cleanup timer); re-adding a session to the same id before the
timer fires preserves the room's existing `DrawingState`; and the timer
body re-reads the roster size at fire time, deleting nothing whenever the
room it finds is non-empty — so the re-joined room survives the firing
with its log contents intact. -/
theorem empty_room_survival (m : RoomManager) (roomId sid sid2 : String)
    (uname : Option String) (now : Nat) (room : Room) (u : User)
    (hroom : mapGet m.rooms roomId = some room)
    (husers : room.users = [(sid, u)]) :
    (mapGet ((m.removeUserFromRoom roomId sid).addUserToRoom roomId sid2 uname
          now).2.rooms roomId).map Room.drawingState
        = some room.drawingState ∧
    (mapGet (((m.removeUserFromRoom roomId sid).addUserToRoom roomId sid2 uname
          now).2.fireCleanupTimer roomId).rooms roomId).map Room.drawingState
        = some room.drawingState ∧
    (∀ (q : RoomManager) (r : String) (room' : Room),
      mapGet q.rooms r = some room' → room'.users.length ≠ 0 →
      (q.fireCleanupTimer r).rooms = q.rooms) := by
  have hdel : mapDelete room.users sid = [] := by
    rw [husers]
    simp [mapDelete]
  have hm1 : m.removeUserFromRoom roomId sid
      = RoomManager.mk
          (mapSet m.rooms roomId (Room.mk room.id [] room.drawingState room.createdAt))
          (m.pendingCleanups ++ [roomId]) := by
    unfold RoomManager.removeUserFromRoom
    rw [hroom]
    simp [hdel]
  have hroom1 : mapGet (m.removeUserFromRoom roomId sid).rooms roomId
      = some (Room.mk room.id [] room.drawingState room.createdAt) := by
    rw [hm1]
    exact mapGet_mapSet_self _ _ _
  have hm2 := addUserToRoom_of_known (m.removeUserFromRoom roomId sid) roomId sid2
    uname now _ hroom1
  have hroom2 : mapGet ((m.removeUserFromRoom roomId sid).addUserToRoom roomId sid2
        uname now).2.rooms roomId
      = some (joinedRoom (Room.mk room.id [] room.drawingState room.createdAt)
          sid2 uname now) := by
    rw [hm2]
    exact mapGet_mapSet_self _ _ _
  have hne2 : (joinedRoom (Room.mk room.id [] room.drawingState room.createdAt)
        sid2 uname now).users.length ≠ 0 := by
    simp [joinedRoom, mapSet]
  refine ⟨?_, ?_, ?_⟩
  · rw [hroom2]
    exact rfl
  · rw [fireCleanupTimer_rooms_of_nonempty _ roomId _ hroom2 hne2, hroom2]
    exact rfl
  · exact fun q r room' hq hne => fireCleanupTimer_rooms_of_nonempty q r room' hq hne

theorem empty_room_survival_witness :
    mapGet wManager.rooms "r" = some wRoom ∧
    wRoom.users = [("A", wUser)] ∧
    ((mapGet ((wManager.removeUserFromRoom "r" "A").addUserToRoom "r" "B" none
          9).2.rooms "r").map Room.drawingState
        = some wRoom.drawingState ∧
      (mapGet (((wManager.removeUserFromRoom "r" "A").addUserToRoom "r" "B" none
          9).2.fireCleanupTimer "r").rooms "r").map Room.drawingState
        = some wRoom.drawingState ∧
      (∀ (q : RoomManager) (r : String) (room' : Room),
        mapGet q.rooms r = some room' → room'.users.length ≠ 0 →
        (q.fireCleanupTimer r).rooms = q.rooms)) :=
  ⟨by decide, by decide,
   empty_room_survival wManager "r" "A" "B" none 9 wRoom wUser (by decide) (by decide)⟩

/-- C9: the session returned by `addUserToRoom` is colored
`userColors[rosterSizeAtJoin % userColors.length]` over the fixed
10-entry palette, and when no display name is supplied its name is
`"UserN"` with `N = rosterSizeAtJoin + 1`, where `rosterSizeAtJoin` is
the roster size of the (possibly freshly created) room at join time. -/
theorem addUser_color_and_default_name (m : RoomManager) (roomId socketId : String)
    (uname : Option String) (now : Nat) :
    (m.addUserToRoom roomId socketId uname now).1.color
        = (userColors.get?
            ((m.getRoom roomId now).1.users.length % userColors.length)).getD "" ∧
    userColors.length = 10 ∧
    (uname = none →
      (m.addUserToRoom roomId socketId uname now).1.username
        = "User" ++ toString ((m.getRoom roomId now).1.users.length + 1)) := by
  refine ⟨rfl, rfl, ?_⟩
  intro h
  subst h
  rfl

theorem addUser_color_and_default_name_witness :
    ((RoomManager.init.addUserToRoom "r" "s" none 3).1.color
        = (userColors.get?
            ((RoomManager.init.getRoom "r" 3).1.users.length % userColors.length)).getD "" ∧
      userColors.length = 10 ∧
      ((none : Option String) = none →
        (RoomManager.init.addUserToRoom "r" "s" none 3).1.username
          = "User" ++ toString ((RoomManager.init.getRoom "r" 3).1.users.length + 1))) ∧
    (RoomManager.init.addUserToRoom "r" "s" none 3).1.color = "#FF6B6B" ∧
    (RoomManager.init.addUserToRoom "r" "s" none 3).1.username = "User1" :=
  ⟨addUser_color_and_default_name RoomManager.init "r" "s" none 3, by decide, by decide⟩

/-- C10: colors are not unique among concurrent room members: after
join A, join B, remove A, join C, the sessions B and C are both on the
roster and both hold the palette color at index 1 (`"#4ECDC4"`), because
the color index is the roster size at join time. -/
theorem concurrent_duplicate_colors :
    (colorScenario.getUser "room" "B").map User.color = some "#4ECDC4" ∧
    (colorScenario.getUser "room" "C").map User.color = some "#4ECDC4" ∧
    (colorScenario.getRoomUsers "room").length = 2 := by
  decide

end CanvasCode
